import Mathlib

/-! Verification of the vismatch-svc perceptual-hash index core.

This file is a shallow embedding, in Lean 4, of the core of the
`vismatch-svc` image-similarity service (Rust), together with theorems
settling the specification claims about it.

Embedding conventions:

* `PathBuf`/`&Path` is modelled as `String`; `Path::with_added_extension`
  appends `"." ++ ext`.
* Images are opaque to the core (decoding and hashing live in external
  crates `image` / `imagehash`), so an image is modelled as an opaque
  value of type `Image := Nat` and the external hashing capability is a
  parameter `hasher : HashType → Image → Hash`; the external distance
  capability is a parameter `distFn : Hash → Hash → Int`.  `Int` models
  the set of `f64` values under `f64::total_cmp`, which is a linear
  order on all bit patterns (NaN included), which is all the core ever
  uses of distances.
* The filesystem effects of the cache layer are modelled by explicit
  state passing of an `FS` value: an association list from file name to
  byte content plus a list of unwritable file names (to model
  best-effort write failures).  Stateful Rust functions become Lean
  functions returning a pair of result and updated `FS`.
* The on-disk cache encoding is `bincode` (standard configuration) of
  `struct Hash { bits: Vec<bool> }`: the vector length as a
  variable-length little-endian integer, then one byte (0 or 1) per
  bit.  This encoding is reproduced concretely below.
* Hash computation on an image file (`image::open` followed by
  `hasher.hash`, both external) is a parameter
  `calcFn : String → HashType → Except String Hash` giving, for an
  image path and algorithm kind, either the computed fingerprint or a
  failure.
-/

/-- Opaque model of a decoded image (`image::DynamicImage`); the core
never inspects it, it is only passed to the external hashing
capability. -/
abbrev Image : Type := Nat

/-- `enum HashType { DHASH, PHASH, AHASH }` from
`src/image_hash/mod.rs`. -/
inductive HashType : Type where
  | DHASH : HashType
  | PHASH : HashType
  | AHASH : HashType
deriving DecidableEq

/-- `fn cache_ext(hash_type: HashType) -> String` from
`src/image_hash/mod.rs`. -/
def cache_ext (hash_type : HashType) : String :=
  match hash_type with
  | HashType.DHASH => "dhash"
  | HashType.PHASH => "phash"
  | HashType.AHASH => "ahash"

/-- `struct Hash { bits: Vec<bool> }` — the serializable proxy for
`imagehash::Hash` (`src/image_hash/mod.rs`). -/
structure Hash : Type where
  bits : List Bool
deriving DecidableEq

/-- `struct ImageHashEntry { image_name, hash_type, hash }` from
`src/image_hash/mod.rs`. -/
structure ImageHashEntry : Type where
  image_name : String
  hash_type : HashType
  hash : Hash
deriving DecidableEq

/-- `struct ImageDistEntry { image_name, distance }` from
`src/image_hash/mod.rs`; `distance: f64` is modelled as `Int` ordered
as by `f64::total_cmp` (the `Ord` instance of `ImageDistEntry`). -/
structure ImageDistEntry : Type where
  image_name : String
  distance : Int
deriving DecidableEq

/-- `Path::with_added_extension` as used for the sidecar cache file
name: `cat.png` with extension `phash` becomes `cat.png.phash`. -/
def with_added_extension (p : String) (ext : String) : String :=
  p ++ "." ++ ext

/-! ## The bincode (standard configuration) encoding of `Hash`

`bincode::serde::encode_into_std_write(&hash_pxy, …, standard())`
writes the single field `bits : Vec<bool>` as: the length as a varint
(single byte below 251; byte 251 then 2 little-endian bytes up to
`2^16`; byte 252 then 4 bytes up to `2^32`; byte 253 then 8 bytes up
to `2^64`), followed by one byte per element, `1` for `true` and `0`
for `false`.  `decode_from_std_read` reads exactly these bytes back
and ignores anything after them. -/

/-- `k` little-endian base-256 bytes of `n`. -/
def toLEBytes : Nat → Nat → List Nat
  | 0, _ => []
  | k + 1, n => (n % 256) :: toLEBytes k (n / 256)

/-- Read `k` little-endian base-256 bytes, returning the value and the
remaining bytes. -/
def readLEBytes : Nat → List Nat → Option (Nat × List Nat)
  | 0, bs => some (0, bs)
  | _ + 1, [] => none
  | k + 1, b :: bs =>
    match readLEBytes k bs with
    | none => none
    | some (m, rest) => some (b + 256 * m, rest)

/-- bincode standard-configuration varint encoding of an unsigned
integer (as used for a `Vec` length, a `u64`). -/
def encodeVarint (n : Nat) : List Nat :=
  if n < 251 then [n]
  else if n < 2 ^ 16 then 251 :: toLEBytes 2 n
  else if n < 2 ^ 32 then 252 :: toLEBytes 4 n
  else 253 :: toLEBytes 8 n

/-- bincode standard-configuration varint decoding. -/
def decodeVarint : List Nat → Option (Nat × List Nat)
  | [] => none
  | b :: bs =>
    if b < 251 then some (b, bs)
    else if b = 251 then readLEBytes 2 bs
    else if b = 252 then readLEBytes 4 bs
    else if b = 253 then readLEBytes 8 bs
    else none

/-- Element encoding of `Vec<bool>`: one byte per element. -/
def encodeBools (bits : List Bool) : List Nat :=
  bits.map (fun b => if b then 1 else 0)

/-- Read `k` bool bytes (each must be 0 or 1). -/
def readBools : Nat → List Nat → Option (List Bool × List Nat)
  | 0, bs => some ([], bs)
  | _ + 1, [] => none
  | k + 1, b :: bs =>
    if b = 0 then
      match readBools k bs with
      | none => none
      | some (l, rest) => some (false :: l, rest)
    else if b = 1 then
      match readBools k bs with
      | none => none
      | some (l, rest) => some (true :: l, rest)
    else none

/-- Full bincode encoding of `Hash { bits }`: varint length then the
bool bytes. -/
def encodeHash (bits : List Bool) : List Nat :=
  encodeVarint bits.length ++ encodeBools bits

/-- Full bincode decoding of `Hash { bits }`; returns the bits and the
unread remainder of the stream. -/
def decodeHash (bs : List Nat) : Option (List Bool × List Nat) :=
  match decodeVarint bs with
  | none => none
  | some (len, rest) => readBools len rest

/-! ## Filesystem model -/

/-- Association-list update used to model both `HashMap::insert`
(replace the binding if present, append otherwise) and re-creating a
file with `File::create` (truncate and rewrite). -/
def assocInsert {α : Type} : List (String × α) → String → α → List (String × α)
  | [], k, v => [(k, v)]
  | (k', v') :: tl, k, v =>
    if k' == k then (k, v) :: tl else (k', v') :: assocInsert tl k v

/-- The filesystem as seen by the cache layer: file name ↦ byte
content, plus the set (as a list) of file names on which `File::create`
fails, to model best-effort write failures. -/
structure FS : Type where
  files : List (String × List Nat)
  unwritable : List String

/-! ## HashCache (`src/image_hash/mod.rs`) -/

/-- `fn calc_image_hash(image_path, hash_type)`: opens the image at
`image_path` and hashes it with the hasher for `hash_type` (both
external, abstracted by `calcFn`), returning an `ImageHashEntry` whose
`image_name` is the path and whose `hash_type` is the requested kind. -/
def calc_image_hash (calcFn : String → HashType → Except String Hash)
    (image_path : String) (hash_type : HashType) :
    Except String ImageHashEntry :=
  match calcFn image_path hash_type with
  | Except.ok h =>
    Except.ok { image_name := image_path, hash_type := hash_type, hash := h }
  | Except.error e => Except.error e

/-- `fn write_hash_cache(image_path, image_hash, hash_type)`: creates
(or truncates) the sidecar file `<image_path>.<ext>` and writes the
bincode encoding of the hash, returning the number of bytes written;
fails if the file cannot be created. -/
def write_hash_cache (fs : FS) (image_path : String) (image_hash : Hash)
    (hash_type : HashType) : Except String Nat × FS :=
  let hash_file_name := with_added_extension image_path (cache_ext hash_type)
  if hash_file_name ∈ fs.unwritable then
    (Except.error "cannot create cache file", fs)
  else
    let bytes := encodeHash image_hash.bits
    (Except.ok bytes.length,
      { fs with files := assocInsert fs.files hash_file_name bytes })

/-- `fn fetch_hash_cache(image_path, hash_type)`: opens the sidecar
file `<image_path>.<ext>` (error if absent), bincode-decodes a `Hash`
from it (error if undecodable, trailing bytes ignored), and returns
the entry with the given path and kind. -/
def fetch_hash_cache (fs : FS) (image_path : String) (hash_type : HashType) :
    Except String ImageHashEntry :=
  let hash_file_name := with_added_extension image_path (cache_ext hash_type)
  match List.lookup hash_file_name fs.files with
  | none => Except.error ("cannot open cache file " ++ hash_file_name)
  | some bytes =>
    match decodeHash bytes with
    | none => Except.error ("cannot deserialize cache file " ++ hash_file_name)
    | some (bits, _) =>
      Except.ok { image_name := image_path, hash_type := hash_type,
                  hash := { bits := bits } }

/-- `fn fetch_cache_or_calc_hash(image_path, hash_type,
force_rewrite_cache)` from `src/image_hash/mod.rs`, lines 179–214,
with the filesystem threaded explicitly.  Note the source's forced
branch: on a successful recompute it executes
`write_hash_cache(image_path, &h.hash, hash_type).ok()` where `h` is
the *previously cached* entry (not `h_new`), and returns `h_new`. -/
def fetch_cache_or_calc_hash (calcFn : String → HashType → Except String Hash)
    (fs : FS) (image_path : String) (hash_type : HashType)
    (force_rewrite_cache : Bool) : Except String ImageHashEntry × FS :=
  match fetch_hash_cache fs image_path hash_type with
  | Except.ok h =>
    match force_rewrite_cache with
    | true =>
      match calc_image_hash calcFn image_path hash_type with
      | Except.ok h_new =>
        (Except.ok h_new,
          (write_hash_cache fs image_path h.hash hash_type).2)
      | Except.error _ => (Except.ok h, fs)
    | false => (Except.ok h, fs)
  | Except.error _ =>
    match calc_image_hash calcFn image_path hash_type with
    | Except.ok h =>
      (Except.ok h, (write_hash_cache fs image_path h.hash hash_type).2)
    | Except.error err => (Except.error err, fs)

/-! ## SimilarityEngine (`src/image_hash/mod.rs`) -/

/-- `fn calc_distance_from_hash(hash, h_entry)`: one `ImageDistEntry`
for `h_entry`, its distance being the external distance between the
query hash and the entry's hash. -/
def calc_distance_from_hash (distFn : Hash → Hash → Int) (hash : Hash)
    (h_ent : ImageHashEntry) : ImageDistEntry :=
  { image_name := h_ent.image_name, distance := distFn hash h_ent.hash }

/-- `fn calc_similarity_list(image, hash_list)` from
`src/image_hash/mod.rs`, lines 273–292: empty input gives an empty
result; otherwise the query image is hashed once, with the algorithm
kind of the *first* entry, and each entry is mapped to its distance
entry in input order. -/
def calc_similarity_list (hasher : HashType → Image → Hash)
    (distFn : Hash → Hash → Int) (image : Image)
    (hash_list : List ImageHashEntry) : List ImageDistEntry :=
  match hash_list with
  | [] => []
  | e0 :: _ =>
    let h := hasher e0.hash_type image
    hash_list.map (fun h_ent => calc_distance_from_hash distFn h h_ent)

/-- The comparison `Vec::sort` uses: the `Ord` instance of
`ImageDistEntry`, i.e. `f64::total_cmp` on `distance` (modelled by the
linear order on `Int`). -/
def distLeP (a b : ImageDistEntry) : Prop :=
  a.distance ≤ b.distance

instance : DecidableRel distLeP :=
  fun a b => inferInstanceAs (Decidable (a.distance ≤ b.distance))

instance : IsTotal ImageDistEntry distLeP :=
  ⟨fun a b => Int.le_total a.distance b.distance⟩

instance : IsTrans ImageDistEntry distLeP :=
  ⟨fun _ _ _ hab hbc => le_trans hab hbc⟩

/-- `diff_result.sort()` in `calc_sim_in_project` (`src/main.rs`,
line 148): Rust's `slice::sort` is a stable sort ordering by
`Ord::cmp` (here `f64::total_cmp` on `distance`).  A stable sort by a
total preorder has a unique possible output, so it is modelled
exactly by `List.insertionSort`, which is stable. -/
def sortDist (l : List ImageDistEntry) : List ImageDistEntry :=
  l.insertionSort distLeP

/-- `rank` of the spec: `calc_similarity_list` followed by the stable
sort performed by the caller (`calc_sim_in_project`). -/
def rank (hasher : HashType → Image → Hash) (distFn : Hash → Hash → Int)
    (image : Image) (hash_list : List ImageHashEntry) : List ImageDistEntry :=
  sortDist (calc_similarity_list hasher distFn image hash_list)

/-! ## ProjectRegistry and handlers (`src/main.rs`) -/

/-- The in-memory registry `HashMap<String, Vec<ImageHashEntry>>`
behind the `RwLock`, modelled as an association list with unique keys
(`List.lookup` models `HashMap::get`, `assocInsert` models
`HashMap::insert`). -/
abbrev ProjectDict : Type := List (String × List ImageHashEntry)

/-- `async fn calc_sim_in_project(image, project_name, project_hashes)`
from `src/main.rs`, lines 123–160, with the registry threaded
explicitly (the function only takes a read section; the returned
registry is the one it was given).  On a present project it returns
the ranked (stably sorted) distance list; on an absent project it
returns the not-found error. -/
def calc_sim_in_project (hasher : HashType → Image → Hash)
    (distFn : Hash → Hash → Int) (image : Image) (project_name : String)
    (project_hashes : ProjectDict) :
    Except String (List ImageDistEntry) × ProjectDict :=
  match List.lookup project_name project_hashes with
  | some hash_list =>
    (Except.ok (sortDist (calc_similarity_list hasher distFn image hash_list)),
      project_hashes)
  | none =>
    (Except.error ("project <" ++ project_name ++
       "> not found in current database"), project_hashes)

/-- The top-3 selection of `compare_handler` (`src/main.rs`,
line 185): `(&dist_vec[0..3])`.  A Rust range slice with an
out-of-bounds end index panics; the panic is modelled as `none`. -/
def compare_top3 (dist_vec : List ImageDistEntry) :
    Option (List ImageDistEntry) :=
  if 3 ≤ dist_vec.length then some (dist_vec.take 3) else none

/-- The result computation of `compare_handler` (`src/main.rs`, lines
164–200) after image decoding: run `calc_sim_in_project`, then slice
the top three entries from the ranked list (`none` = panic). -/
def compare_handler_result (hasher : HashType → Image → Hash)
    (distFn : Hash → Hash → Int) (image : Image) (project_name : String)
    (project_hashes : ProjectDict) :
    Except String (Option (List ImageDistEntry)) :=
  match (calc_sim_in_project hasher distFn image project_name
      project_hashes).1 with
  | Except.ok dist_vec => Except.ok (compare_top3 dist_vec)
  | Except.error e => Except.error e

/-- `async fn save_image_to_project(project_root, project_name, image,
image_name, hash_type, project_hashes)` from `src/main.rs`, lines
49–118, with registry and filesystem threaded explicitly and the
outcomes of the external filesystem operations given as flags:
`dir_exists` — whether the project directory already exists (line 61);
`create_ok` — whether `create_dir` succeeds when it does not (line 64);
`save_ok` — whether `image.save` succeeds (line 83).

Control flow as in the source: after the directory check the write
lock is taken (line 72) and an *empty* index is unconditionally
inserted for the project (line 74), the image is saved, the hash is
computed by `fetch_cache_or_calc_hash(path, hash_type, true)` (lines
93–107), and on success the entry is pushed onto the project's current
index (lines 112–115).  Early `?` returns leave the already-inserted
empty index in place. -/
def save_image_to_project (calcFn : String → HashType → Except String Hash)
    (dir_exists create_ok save_ok : Bool) (fs : FS)
    (project_root project_name image_name : String) (hash_type : HashType)
    (project_hashes : ProjectDict) :
    Except String Unit × ProjectDict × FS :=
  if !dir_exists && !create_ok then
    (Except.error "cannot create project folder", project_hashes, fs)
  else
    let dict1 := assocInsert project_hashes project_name []
    let image_target_path :=
      project_root ++ "/" ++ project_name ++ "/" ++ image_name
    if !save_ok then
      (Except.error "error while saving image", dict1, fs)
    else
      match fetch_cache_or_calc_hash calcFn fs image_target_path hash_type
          true with
      | (Except.ok hash_result, fs') =>
        let dict2 :=
          match List.lookup project_name dict1 with
          | some val => assocInsert dict1 project_name (val ++ [hash_result])
          | none => dict1
        (Except.ok (), dict2, fs')
      | (Except.error e, fs') => (Except.error e, dict1, fs')

/-! ## Startup index build (`src/project_mgmt.rs`, `src/main.rs`) -/

/-- `fn calc_hash_project(project_path, hash_type)` from
`src/project_mgmt.rs`, lines 26–43, with the directory listing of
image files given as `images` and the filesystem threaded through the
sequence of `fetch_cache_or_calc_hash(…, false)` calls;
`partition_result` keeps the successful entries in order and silently
drops failures. -/
def calc_hash_project (calcFn : String → HashType → Except String Hash)
    (fs : FS) (images : List String) (hash_type : HashType) :
    List ImageHashEntry × FS :=
  match images with
  | [] => ([], fs)
  | f :: tl =>
    match fetch_cache_or_calc_hash calcFn fs f hash_type false with
    | (Except.ok h, fs') =>
      let rest := calc_hash_project calcFn fs' tl hash_type
      (h :: rest.1, rest.2)
    | (Except.error _, fs') => calc_hash_project calcFn fs' tl hash_type

/-- The startup registry build of `main` (`src/main.rs`, lines
282–310): every child project directory (name plus its image file
listing) is loaded through `load_or_calc_project_hashes`, which
delegates to `calc_hash_project` with the standard hash type, and the
resulting pairs are collected into the registry map. -/
def build_project_dict (calcFn : String → HashType → Except String Hash)
    (fs : FS) (projects : List (String × List String))
    (hash_type : HashType) : ProjectDict × FS :=
  match projects with
  | [] => ([], fs)
  | (name, images) :: tl =>
    let loaded := calc_hash_project calcFn fs images hash_type
    let rest := build_project_dict calcFn loaded.2 tl hash_type
    ((name, loaded.1) :: rest.1, rest.2)

/-! ## Event-trace model of the upload path's lock discipline

`save_image_to_project` holds the registry's exclusive write section
from line 72 until the function returns (the guard
`project_dict_wlock` lives to the end of every path).  To settle the
temporal claim about the lock discipline, the function's effects are
replayed as an ordered event trace. -/

/-- Observable events of one `save_image_to_project` execution. -/
inductive UploadEvent : Type where
  | createProjectDir : UploadEvent
  | acquireWrite : UploadEvent
  | insertEmptyIndex : UploadEvent
  | saveImageFile : UploadEvent
  | computeFingerprint : UploadEvent
  | appendIndexEntry : UploadEvent
  | releaseWrite : UploadEvent
deriving DecidableEq

/-- The ordered event trace of `save_image_to_project` (`src/main.rs`,
lines 49–118) for the given outcomes of the external operations:
directory check/creation (lines 61–68, before the lock); write-lock
acquisition (line 72); unconditional insertion of an empty index
(line 74); `image.save` (line 83, under the lock); the spawned and
awaited `fetch_cache_or_calc_hash` task (lines 93–107, under the
lock); the append (lines 112–115); and the release of the write guard
when the function returns (line 118 or an early `?` return). -/
def save_image_trace (dir_exists create_ok save_ok hash_ok : Bool) :
    List UploadEvent :=
  if !dir_exists && !create_ok then
    [UploadEvent.createProjectDir]
  else
    (if dir_exists then [] else [UploadEvent.createProjectDir]) ++
    [UploadEvent.acquireWrite, UploadEvent.insertEmptyIndex,
     UploadEvent.saveImageFile] ++
    (if !save_ok then [UploadEvent.releaseWrite]
     else
       UploadEvent.computeFingerprint ::
         (if hash_ok then
            [UploadEvent.appendIndexEntry, UploadEvent.releaseWrite]
          else [UploadEvent.releaseWrite]))

/-- Whether a `computeFingerprint` event occurs while the write
section is held, i.e. after an `acquireWrite` with no intervening
`releaseWrite`; `held` is the lock state at the head of the trace. -/
def computeWhileWriteHeld : List UploadEvent → Bool → Bool
  | [], _ => false
  | UploadEvent.acquireWrite :: tl, _ => computeWhileWriteHeld tl true
  | UploadEvent.releaseWrite :: tl, _ => computeWhileWriteHeld tl false
  | UploadEvent.computeFingerprint :: tl, held =>
    held || computeWhileWriteHeld tl held
  | _ :: tl, held => computeWhileWriteHeld tl held

/-! ## Helper lemmas: the cache encoding round-trips -/

theorem readLEBytes_toLEBytes (k : Nat) (n : Nat) (rest : List Nat) :
    readLEBytes k (toLEBytes k n ++ rest) = some (n % 256 ^ k, rest) := by
  induction k generalizing n with
  | zero => simp [readLEBytes, toLEBytes, Nat.mod_one]
  | succ k ih =>
    simp only [toLEBytes, readLEBytes, List.cons_append]
    rw [show (toLEBytes k (n / 256)).append rest
        = toLEBytes k (n / 256) ++ rest from rfl, ih (n / 256)]
    have h : n % 256 ^ (k + 1) = n % 256 + 256 * (n / 256 % 256 ^ k) := by
      rw [Nat.pow_succ, Nat.mul_comm (256 ^ k) 256, Nat.mod_mul]
    rw [h]

theorem decodeVarint_encodeVarint (n : Nat) (rest : List Nat)
    (h : n < 2 ^ 64) :
    decodeVarint (encodeVarint n ++ rest) = some (n, rest) := by
  unfold encodeVarint
  by_cases h1 : n < 251
  · simp [decodeVarint, h1]
  · by_cases h2 : n < 2 ^ 16
    · simp only [if_neg h1, if_pos h2, List.cons_append, decodeVarint,
        readLEBytes_toLEBytes]
      norm_num
      omega
    · by_cases h3 : n < 2 ^ 32
      · simp only [if_neg h1, if_neg h2, if_pos h3, List.cons_append,
          decodeVarint, readLEBytes_toLEBytes]
        norm_num
        omega
      · simp only [if_neg h1, if_neg h2, if_neg h3, List.cons_append,
          decodeVarint, readLEBytes_toLEBytes]
        norm_num
        omega

theorem readBools_encodeBools (bits : List Bool) (rest : List Nat) :
    readBools bits.length (encodeBools bits ++ rest) = some (bits, rest) := by
  induction bits with
  | nil => simp [readBools, encodeBools]
  | cons b tl ih =>
    cases b <;> simp [readBools, encodeBools, List.length_cons] <;>
      simp only [encodeBools] at ih <;> rw [ih]

theorem decodeHash_encodeHash (bits : List Bool) (rest : List Nat)
    (h : bits.length < 2 ^ 64) :
    decodeHash (encodeHash bits ++ rest) = some (bits, rest) := by
  unfold decodeHash encodeHash
  rw [List.append_assoc, decodeVarint_encodeVarint bits.length _ h]
  exact readBools_encodeBools bits rest

theorem lookup_assocInsert_self {α : Type} (d : List (String × α))
    (k : String) (v : α) :
    List.lookup k (assocInsert d k v) = some v := by
  induction d with
  | nil => simp [assocInsert, List.lookup]
  | cons hd tl ih =>
    obtain ⟨k', v'⟩ := hd
    by_cases hk : (k' == k) = true
    · have hkk : k' = k := beq_iff_eq.mp hk
      subst hkk
      simp [assocInsert, List.lookup]
    · have hne : (k == k') = false :=
        beq_eq_false_iff_ne.mpr (fun hqq => hk (beq_iff_eq.mpr hqq.symm))
      simp only [assocInsert, if_neg hk, List.lookup, hne]
      exact ih

theorem lookup_assocInsert_ne {α : Type} (d : List (String × α))
    (k q : String) (v : α) (h : q ≠ k) :
    List.lookup q (assocInsert d k v) = List.lookup q d := by
  induction d with
  | nil =>
    simp only [assocInsert, List.lookup, List.lookup_nil]
    rw [show (q == k) = false from beq_eq_false_iff_ne.mpr h]
  | cons hd tl ih =>
    obtain ⟨k', v'⟩ := hd
    by_cases hk : (k' == k) = true
    · have hkk : k' = k := beq_iff_eq.mp hk
      subst hkk
      simp only [assocInsert, if_pos hk, List.lookup,
        show (q == k') = false from beq_eq_false_iff_ne.mpr h]
    · simp only [assocInsert, if_neg hk, List.lookup]
      cases hq : (q == k') with
      | true => rfl
      | false => exact ih

/-! ## Claim theorems -/

/-- C5: for every image path whose cache file loads successfully,
`fetch_cache_or_calc_hash` with `force_rewrite_cache = false` returns
the cached fingerprint as-is (and leaves the filesystem untouched),
and this holds for *every* hashing capability `calcFn` — in
particular the result does not depend on it, so the hashing capability
is never invoked on this path. -/
theorem fetch_warm_cache_returns_cached (fs : FS) (image_path : String)
    (hash_type : HashType) (e : ImageHashEntry)
    (h : fetch_hash_cache fs image_path hash_type = Except.ok e) :
    ∀ calcFn : String → HashType → Except String Hash,
      fetch_cache_or_calc_hash calcFn fs image_path hash_type false
        = (Except.ok e, fs) := by
  intro calcFn
  unfold fetch_cache_or_calc_hash
  rw [h]

/-- Warm-cache filesystem used to instantiate the cache theorems: the
sidecar `a.png.phash` holds the encoding of the fingerprint `[true,
false]`. -/
def warmFS : FS :=
  { files := [("a.png.phash", encodeHash [true, false])], unwritable := [] }

/-- The entry the warm cache yields for `a.png`. -/
def warmEntry : ImageHashEntry :=
  { image_name := "a.png", hash_type := HashType.PHASH,
    hash := { bits := [true, false] } }

/-- A hashing capability that always fails: if the warm-cache path
consulted it, the result could not be `Except.ok`. -/
def failCalc : String → HashType → Except String Hash :=
  fun _ _ => Except.error "hashing capability invoked"

/-- Witness for C5 at a concrete warm cache, with the
always-failing hashing capability. -/
theorem fetch_warm_cache_returns_cached_witness :
    fetch_cache_or_calc_hash failCalc warmFS "a.png" HashType.PHASH false
      = (Except.ok warmEntry, warmFS) :=
  fetch_warm_cache_returns_cached warmFS "a.png" HashType.PHASH warmEntry
    rfl failCalc

/-- C6: for every image path whose cache load fails,
`fetch_cache_or_calc_hash` (with either value of the force flag)
computes a fresh fingerprint; on success it returns the fresh entry
and best-effort stores it (the filesystem after the call is exactly
the one after the store attempt, and the returned value is the fresh
entry whether or not the store succeeded); on compute failure it
propagates the compute error and leaves the filesystem unchanged. -/
theorem fetch_cold_cache_computes
    (calcFn : String → HashType → Except String Hash) (fs : FS)
    (image_path : String) (hash_type : HashType) (force : Bool) (e : String)
    (hmiss : fetch_hash_cache fs image_path hash_type = Except.error e) :
    (∀ hsh : Hash, calcFn image_path hash_type = Except.ok hsh →
      fetch_cache_or_calc_hash calcFn fs image_path hash_type force
        = (Except.ok { image_name := image_path, hash_type := hash_type,
                       hash := hsh },
           (write_hash_cache fs image_path hsh hash_type).2)) ∧
    (∀ msg : String, calcFn image_path hash_type = Except.error msg →
      fetch_cache_or_calc_hash calcFn fs image_path hash_type force
        = (Except.error msg, fs)) := by
  constructor
  · intro hsh hcalc
    unfold fetch_cache_or_calc_hash calc_image_hash
    rw [hmiss, hcalc]
  · intro msg hcalc
    unfold fetch_cache_or_calc_hash calc_image_hash
    rw [hmiss, hcalc]

/-- Cold-cache filesystem on which the sidecar for `b.png` is also
unwritable, so the best-effort store fails and is ignored. -/
def coldFS : FS := { files := [], unwritable := ["b.png.phash"] }

/-- A hashing capability that computes the fingerprint `[true]`. -/
def okCalc : String → HashType → Except String Hash :=
  fun _ _ => Except.ok { bits := [true] }

/-- Witness for C6 at a concrete cold cache whose store attempt fails:
the fresh entry is still returned and no error is propagated. -/
theorem fetch_cold_cache_computes_witness :
    fetch_cache_or_calc_hash okCalc coldFS "b.png" HashType.PHASH false
      = (Except.ok { image_name := "b.png", hash_type := HashType.PHASH,
                     hash := { bits := [true] } }, coldFS) :=
  (fetch_cold_cache_computes okCalc coldFS "b.png" HashType.PHASH false
      ("cannot open cache file " ++ "b.png.phash") rfl).1
    { bits := [true] } rfl

/-- `decodeHash` inverts `encodeHash` on a stream holding exactly one
encoded hash. -/
theorem decodeHash_encodeHash_nil (bits : List Bool)
    (h : bits.length < 2 ^ 64) :
    decodeHash (encodeHash bits) = some (bits, []) := by
  have := decodeHash_encodeHash bits [] h
  rwa [List.append_nil] at this

/-- C9: for every fingerprint bit vector and every algorithm kind,
storing the fingerprint with `write_hash_cache` (on a filesystem where
the sidecar file can be created) and loading it back with
`fetch_hash_cache` succeeds and yields a bit-equal fingerprint.  The
all-zero and all-one vectors are instances of the general statement. -/
theorem cache_roundtrip (fs : FS) (image_path : String)
    (hash_type : HashType) (bits : List Bool)
    (hw : with_added_extension image_path (cache_ext hash_type)
        ∉ fs.unwritable)
    (hlen : bits.length < 2 ^ 64) :
    (write_hash_cache fs image_path { bits := bits } hash_type).1
        = Except.ok (encodeHash bits).length ∧
    fetch_hash_cache
        (write_hash_cache fs image_path { bits := bits } hash_type).2
        image_path hash_type
      = Except.ok { image_name := image_path, hash_type := hash_type,
                    hash := { bits := bits } } := by
  simp only [write_hash_cache, fetch_hash_cache, if_neg hw]
  constructor
  · trivial
  · simp only [lookup_assocInsert_self, decodeHash_encodeHash_nil bits hlen]

/-- Witness for C9 with the all-`true` three-bit fingerprint on an
initially empty, fully writable filesystem. -/
theorem cache_roundtrip_witness :
    fetch_hash_cache
        (write_hash_cache { files := [], unwritable := [] } "c.png"
          { bits := [true, true, true] } HashType.AHASH).2
        "c.png" HashType.AHASH
      = Except.ok { image_name := "c.png", hash_type := HashType.AHASH,
                    hash := { bits := [true, true, true] } } :=
  (cache_roundtrip { files := [], unwritable := [] } "c.png" HashType.AHASH
    [true, true, true] (by simp) (by norm_num)).2

/-- C8: querying a project name absent from the registry makes
`calc_sim_in_project` fail with the project-not-found error, and the
registry it hands back is exactly the one it was given (the function
only takes a read section and performs no mutation). -/
theorem compare_unknown_project (hasher : HashType → Image → Hash)
    (distFn : Hash → Hash → Int) (image : Image) (project_name : String)
    (project_hashes : ProjectDict)
    (h : List.lookup project_name project_hashes = none) :
    calc_sim_in_project hasher distFn image project_name project_hashes
      = (Except.error ("project <" ++ project_name ++
          "> not found in current database"), project_hashes) := by
  unfold calc_sim_in_project
  rw [h]

/-- A hashing capability model returning the empty fingerprint, used
to instantiate engine-level theorems. -/
def constHasher : HashType → Image → Hash := fun _ _ => { bits := [] }

/-- A distance capability model returning distance `0`, used to
instantiate engine-level theorems. -/
def constDist : Hash → Hash → Int := fun _ _ => 0

/-- Witness for C8: querying project `q` in a registry holding only
project `p` fails with the not-found error and leaves the registry
unchanged. -/
theorem compare_unknown_project_witness :
    calc_sim_in_project constHasher constDist 0 "q" [("p", [])]
      = (Except.error ("project <" ++ "q" ++
          "> not found in current database"), [("p", [])]) :=
  compare_unknown_project constHasher constDist 0 "q" [("p", [])] rfl

/-- The pre-existing indexed entry for the C1 scenario. -/
def oldEntry : ImageHashEntry :=
  { image_name := "image_root/p/old.png", hash_type := HashType.PHASH,
    hash := { bits := [true] } }

/-- The entry the C1 upload computes for the new image. -/
def newEntry : ImageHashEntry :=
  { image_name := "image_root/p/new.png", hash_type := HashType.PHASH,
    hash := { bits := [false] } }

/-- A hashing capability computing the fingerprint `[false]`. -/
def falseCalc : String → HashType → Except String Hash :=
  fun _ _ => Except.ok { bits := [false] }

/-- C1 (against the code): starting from a registry in which project
`p` already holds one entry, a successful `save_image_to_project` on
`p` leaves the project with exactly the one new entry — the
unconditional `insert(project_name, Vec::new())` on `src/main.rs`
line 74 replaces the existing index with an empty one before the
append, so the N = 1 existing entry is lost and the final index has 1
entry, not N + 1 = 2 as the claim states. -/
theorem save_image_clobbers_index :
    (save_image_to_project falseCalc true true true
        { files := [], unwritable := [] } "image_root" "p" "new.png"
        HashType.PHASH [("p", [oldEntry])]).1 = Except.ok () ∧
    List.lookup "p"
        (save_image_to_project falseCalc true true true
          { files := [], unwritable := [] } "image_root" "p" "new.png"
          HashType.PHASH [("p", [oldEntry])]).2.1
      = some [newEntry] ∧
    List.lookup "p"
        (save_image_to_project falseCalc true true true
          { files := [], unwritable := [] } "image_root" "p" "new.png"
          HashType.PHASH [("p", [oldEntry])]).2.1
      ≠ some [oldEntry, newEntry] := by
  refine ⟨rfl, rfl, ?_⟩
  intro h
  rw [show List.lookup "p"
        (save_image_to_project falseCalc true true true
          { files := [], unwritable := [] } "image_root" "p" "new.png"
          HashType.PHASH [("p", [oldEntry])]).2.1
      = some [newEntry] from rfl] at h
  simp [newEntry, oldEntry] at h

/-- The C2 filesystem: the cache sidecar for `img.png` holds the old
fingerprint `[true, true]`. -/
def staleFS : FS :=
  { files := [("img.png.phash", encodeHash [true, true])], unwritable := [] }

/-- A hashing capability computing the new fingerprint
`[false, false]`. -/
def freshCalc : String → HashType → Except String Hash :=
  fun _ _ => Except.ok { bits := [false, false] }

/-- C2 (against the code): with a warm cache and
`force_rewrite_cache = true`, a successful recompute returns the fresh
fingerprint, but the cache file afterwards still holds the encoding of
the OLD cached fingerprint — `src/image_hash/mod.rs` line 190 writes
`&h.hash` (the just-loaded cached value) instead of `h_new`, so the
new value is never persisted, contradicting the claim that the new
fingerprint is stored. -/
theorem forced_recompute_stores_stale_value :
    (fetch_cache_or_calc_hash freshCalc staleFS "img.png" HashType.PHASH
        true).1
      = Except.ok { image_name := "img.png", hash_type := HashType.PHASH,
                    hash := { bits := [false, false] } } ∧
    List.lookup "img.png.phash"
        (fetch_cache_or_calc_hash freshCalc staleFS "img.png" HashType.PHASH
          true).2.files
      = some (encodeHash [true, true]) ∧
    encodeHash [true, true] ≠ encodeHash [false, false] := by
  refine ⟨rfl, rfl, ?_⟩
  intro h
  simp [encodeHash, encodeVarint, encodeBools] at h

/-- Entries of the two-image project used for the C3 scenario. -/
def smallE0 : ImageHashEntry :=
  { image_name := "a.png", hash_type := HashType.PHASH,
    hash := { bits := [true] } }

/-- Second entry of the two-image project used for the C3 scenario. -/
def smallE1 : ImageHashEntry :=
  { image_name := "b.png", hash_type := HashType.PHASH,
    hash := { bits := [false] } }

/-- C3 (against the code): on an existing project with only 2 indexed
images, the ranked list has 2 < K = 3 entries, and the caller's top-K
selection `(&dist_vec[0..3])` (`src/main.rs` line 185) slices out of
range — a Rust panic, modelled as `none` — instead of returning the
two available entries as the claim states. -/
theorem compare_top3_faults_on_small_project :
    (calc_sim_in_project constHasher constDist 0 "p"
        [("p", [smallE0, smallE1])]).1
      = Except.ok [{ image_name := "a.png", distance := 0 },
                   { image_name := "b.png", distance := 0 }] ∧
    compare_handler_result constHasher constDist 0 "p"
        [("p", [smallE0, smallE1])]
      = Except.ok none := by
  exact ⟨rfl, rfl⟩

/-- C7 (against the code): on a successful upload the event trace of
`save_image_to_project` runs the fingerprint computation strictly
between acquiring and releasing the registry's exclusive write
section — the write guard is taken on `src/main.rs` line 72 and held
across the spawned-and-awaited hash task of lines 93–107 — so the
claim that the write section is entered only after the fingerprint
has been computed fails. -/
theorem upload_computes_under_write_lock :
    save_image_trace true true true true
      = [UploadEvent.acquireWrite, UploadEvent.insertEmptyIndex,
         UploadEvent.saveImageFile, UploadEvent.computeFingerprint,
         UploadEvent.appendIndexEntry, UploadEvent.releaseWrite] ∧
    computeWhileWriteHeld (save_image_trace true true true true) false
      = true := by
  exact ⟨rfl, rfl⟩

/-- C4: `rank` (`calc_similarity_list` followed by the stable sort) on
the empty entry list is empty; on a non-empty list of entries it
produces exactly one `ImageDistEntry` per input entry, carrying the
corresponding image identifier with the distance of the entry's hash
to the single query fingerprint computed with the *first* entry's
algorithm kind; the sorted result is ascending in the NaN-safe total
order on distances, and ties retain relative input order (stability of
the sort). -/
theorem rank_props (hasher : HashType → Image → Hash)
    (distFn : Hash → Hash → Int) (image : Image) (e0 : ImageHashEntry)
    (rest : List ImageHashEntry) :
    rank hasher distFn image [] = [] ∧
    (rank hasher distFn image (e0 :: rest)).length
      = (e0 :: rest).length ∧
    calc_similarity_list hasher distFn image (e0 :: rest)
      = (e0 :: rest).map (fun ent =>
          { image_name := ent.image_name,
            distance := distFn (hasher e0.hash_type image) ent.hash }) ∧
    (rank hasher distFn image (e0 :: rest)).Sorted distLeP ∧
    (∀ a b : ImageDistEntry,
      [a, b].Sublist (calc_similarity_list hasher distFn image (e0 :: rest)) →
      a.distance ≤ b.distance →
      [a, b].Sublist (rank hasher distFn image (e0 :: rest))) := by
  refine ⟨rfl, ?_, rfl, ?_, ?_⟩
  · unfold rank sortDist
    rw [List.length_insertionSort]
    simp [calc_similarity_list]
  · exact List.sorted_insertionSort distLeP _
  · intro a b hsub hle
    exact List.pair_sublist_insertionSort hle hsub

/-- First entry of the two-entry input used to instantiate C4. -/
def tieE0 : ImageHashEntry :=
  { image_name := "first.png", hash_type := HashType.PHASH,
    hash := { bits := [true] } }

/-- Second entry of the two-entry input used to instantiate C4. -/
def tieE1 : ImageHashEntry :=
  { image_name := "second.png", hash_type := HashType.PHASH,
    hash := { bits := [false] } }

/-- Witness for C4: with the constant distance capability both entries
tie at distance 0, and the stability clause of `rank_props`, applied
at this concrete input, keeps them in input order in the ranked
result. -/
theorem rank_props_witness :
    ([{ image_name := "first.png", distance := 0 },
      { image_name := "second.png", distance := 0 }] :
        List ImageDistEntry).Sublist
      (rank constHasher constDist 0 [tieE0, tieE1]) :=
  (rank_props constHasher constDist 0 tieE0 [tieE1]).2.2.2.2
    { image_name := "first.png", distance := 0 }
    { image_name := "second.png", distance := 0 }
    (List.Sublist.refl _) (le_refl 0)

/-! ## Helper lemmas: every produced entry carries the requested kind -/

theorem fetch_hash_cache_hash_type (fs : FS) (p : String) (ht : HashType)
    (e : ImageHashEntry) (h : fetch_hash_cache fs p ht = Except.ok e) :
    e.hash_type = ht := by
  simp only [fetch_hash_cache] at h
  split at h
  · exact Except.noConfusion h
  · split at h
    · exact Except.noConfusion h
    · cases h
      rfl

theorem calc_image_hash_hash_type
    (calcFn : String → HashType → Except String Hash) (p : String)
    (ht : HashType) (e : ImageHashEntry)
    (h : calc_image_hash calcFn p ht = Except.ok e) : e.hash_type = ht := by
  unfold calc_image_hash at h
  split at h
  · cases h
    rfl
  · exact Except.noConfusion h

theorem fetch_cache_or_calc_hash_type
    (calcFn : String → HashType → Except String Hash) (fs : FS)
    (p : String) (ht : HashType) (force : Bool) (e : ImageHashEntry)
    (h : (fetch_cache_or_calc_hash calcFn fs p ht force).1 = Except.ok e) :
    e.hash_type = ht := by
  unfold fetch_cache_or_calc_hash at h
  split at h
  · next hc hfetch =>
    split at h
    · split at h
      · next hnew hcalc =>
        cases h
        exact calc_image_hash_hash_type calcFn p ht _ hcalc
      · cases h
        exact fetch_hash_cache_hash_type fs p ht _ hfetch
    · cases h
      exact fetch_hash_cache_hash_type fs p ht _ hfetch
  · next err hfetch =>
    split at h
    · next h0 hcalc =>
      cases h
      exact calc_image_hash_hash_type calcFn p ht _ hcalc
    · exact Except.noConfusion h

theorem calc_hash_project_hash_type
    (calcFn : String → HashType → Except String Hash) (fs : FS)
    (images : List String) (ht : HashType) :
    ∀ e ∈ (calc_hash_project calcFn fs images ht).1, e.hash_type = ht := by
  induction images generalizing fs with
  | nil =>
    intro e he
    simp [calc_hash_project] at he
  | cons f tl ih =>
    intro e he
    unfold calc_hash_project at he
    split at he
    · next h0 fs' hf =>
      rcases List.mem_cons.mp he with rfl | hmem
      · exact fetch_cache_or_calc_hash_type calcFn fs f ht false e
          (by rw [hf])
      · exact ih fs' e hmem
    · next err fs' hf =>
      exact ih fs' e he

/-- Every entry of every project index in the registry has the fixed
standard kind `PHASH`. -/
def allPhash (dict : ProjectDict) : Prop :=
  ∀ (p : String) (entries : List ImageHashEntry),
    List.lookup p dict = some entries →
    ∀ e ∈ entries, e.hash_type = HashType.PHASH

theorem build_project_dict_hash_type
    (calcFn : String → HashType → Except String Hash) (fs : FS)
    (projects : List (String × List String)) (ht : HashType) :
    ∀ (p : String) (entries : List ImageHashEntry),
      List.lookup p (build_project_dict calcFn fs projects ht).1
        = some entries →
      ∀ e ∈ entries, e.hash_type = ht := by
  induction projects generalizing fs with
  | nil =>
    intro p entries hl
    simp [build_project_dict, List.lookup] at hl
  | cons pr tl ih =>
    obtain ⟨name, images⟩ := pr
    intro p entries hl e he
    simp only [build_project_dict, List.lookup] at hl
    cases hq : (p == name) with
    | true =>
      rw [hq] at hl
      cases hl
      exact calc_hash_project_hash_type calcFn fs images ht e he
    | false =>
      rw [hq] at hl
      exact ih _ p entries hl e he

theorem save_image_preserves_allPhash
    (calcFn : String → HashType → Except String Hash)
    (dir_exists create_ok save_ok : Bool) (fs : FS)
    (project_root project_name image_name : String) (dict : ProjectDict)
    (hall : allPhash dict) :
    allPhash (save_image_to_project calcFn dir_exists create_ok save_ok fs
        project_root project_name image_name HashType.PHASH dict).2.1 := by
  have hdict1 : allPhash (assocInsert dict project_name []) := by
    intro q entries hl e he
    by_cases hq : q = project_name
    · subst hq
      rw [lookup_assocInsert_self] at hl
      cases hl
      cases he
    · rw [lookup_assocInsert_ne dict project_name q [] hq] at hl
      exact hall q entries hl e he
  unfold save_image_to_project
  split
  · exact hall
  · simp only
    split
    · exact hdict1
    · split
      · next hash_result fs' hf =>
        rw [lookup_assocInsert_self]
        simp only [List.nil_append]
        intro q entries hl e he
        by_cases hq : q = project_name
        · subst hq
          rw [lookup_assocInsert_self] at hl
          cases hl
          rcases List.mem_singleton.mp he with rfl
          exact fetch_cache_or_calc_hash_type calcFn fs _ HashType.PHASH
            true e (by rw [hf])
        · rw [lookup_assocInsert_ne _ project_name q _ hq] at hl
          exact hdict1 q entries hl e he
      · exact hdict1

/-- C10: every `ImageHashEntry` that enters the `ProjectRegistry` has
algorithm kind `PHASH`: the startup scan (`main`, `src/main.rs` lines
255 and 282–310) builds every project index with the fixed standard
hash type `PHASH`, and every upload (`upload_handler`, line 228)
appends its entry through `save_image_to_project` with the hard-coded
kind `PHASH`, so a registry built at startup satisfies `allPhash` and
`save_image_to_project` with kind `PHASH` preserves `allPhash`. -/
theorem registry_entries_all_phash
    (calcFn : String → HashType → Except String Hash) (fs fs2 : FS)
    (projects : List (String × List String))
    (dir_exists create_ok save_ok : Bool)
    (project_root project_name image_name : String) (dict : ProjectDict)
    (hall : allPhash dict) :
    allPhash (build_project_dict calcFn fs projects HashType.PHASH).1 ∧
    allPhash (save_image_to_project calcFn dir_exists create_ok save_ok fs2
        project_root project_name image_name HashType.PHASH dict).2.1 :=
  ⟨fun p entries hl e he =>
      build_project_dict_hash_type calcFn fs projects HashType.PHASH
        p entries hl e he,
    save_image_preserves_allPhash calcFn dir_exists create_ok save_ok fs2
      project_root project_name image_name dict hall⟩

/-- Witness for C10: a concrete startup scan of one project with one
image and a concrete upload into an empty registry, whose `allPhash`
hypothesis holds vacuously. -/
theorem registry_entries_all_phash_witness :
    allPhash (build_project_dict okCalc { files := [], unwritable := [] }
        [("demo", ["image_root/demo/x.png"])] HashType.PHASH).1 ∧
    allPhash (save_image_to_project okCalc true true true
        { files := [], unwritable := [] } "image_root" "demo" "x.png"
        HashType.PHASH []).2.1 :=
  registry_entries_all_phash okCalc { files := [], unwritable := [] }
    { files := [], unwritable := [] } [("demo", ["image_root/demo/x.png"])]
    true true true "image_root" "demo" "x.png" []
    (fun _ _ hl => Option.noConfusion hl)
